import Mathlib

/-!
Shallow embedding of the go-anyway/framework-interceptor repository
(src/metrics_interceptor.go, src/trace_interceptor.go) together with the
parts of its external collaborators that the interceptors observe:
gRPC status codes, gRPC metadata (a map from lowercased keys to lists of
string values), a key-value call context, and the random source used by
generateRequestID.  Side effects (metric reports, log lines, span
attributes) are made explicit as event lists in the results of the
embedded interceptor functions.
-/

namespace Interceptor

/-! ### gRPC status codes (google.golang.org/grpc/codes) -/

/-- The gRPC status codes of google.golang.org/grpc/codes. -/
inductive Code where
  | ok
  | cancelled
  | unknown
  | invalidArgument
  | deadlineExceeded
  | notFound
  | alreadyExists
  | permissionDenied
  | resourceExhausted
  | failedPrecondition
  | aborted
  | outOfRange
  | unimplemented
  | internalErr
  | unavailable
  | dataLoss
  | unauthenticated
  deriving DecidableEq

/-- String rendering of a gRPC code, as codes.Code.String() produces it. -/
def Code.toGoString : Code → String
  | .ok => "OK"
  | .cancelled => "Canceled"
  | .unknown => "Unknown"
  | .invalidArgument => "InvalidArgument"
  | .deadlineExceeded => "DeadlineExceeded"
  | .notFound => "NotFound"
  | .alreadyExists => "AlreadyExists"
  | .permissionDenied => "PermissionDenied"
  | .resourceExhausted => "ResourceExhausted"
  | .failedPrecondition => "FailedPrecondition"
  | .aborted => "Aborted"
  | .outOfRange => "OutOfRange"
  | .unimplemented => "Unimplemented"
  | .internalErr => "Internal"
  | .unavailable => "Unavailable"
  | .dataLoss => "DataLoss"
  | .unauthenticated => "Unauthenticated"

/-- A Go error value as the interceptors observe it: `code` is the gRPC
status code that status.Code returns for this error (codes.Unknown for an
error that carries no status), `msg` its message. -/
structure GoError where
  code : Code
  msg : String
  deriving DecidableEq

/-- status.Code of google.golang.org/grpc/status: a nil error maps to
codes.OK, a non-nil error to the status code it carries. -/
def statusCode : Option GoError → Code
  | none => Code.ok
  | some e => e.code

/-! ### Hex encoding (encoding/hex and fmt %x) -/

/-- Lowercase hex digit character for a value below 16 (encoding/hex's
hextable and fmt's lowercase digit set). -/
def hexChar (n : Nat) : Char :=
  if n < 10 then Char.ofNat (48 + n) else Char.ofNat (87 + n)

/-- hex.EncodeToString: each byte becomes two lowercase hex characters,
high nibble first. -/
def hexEncodeToString (bs : List (Fin 256)) : String :=
  ⟨bs.flatMap fun b => [hexChar (b.val / 16), hexChar (b.val % 16)]⟩

/-- Big-endian base-16 digits of a value that fits in 64 bits, with leading
zeros stripped and a single 0 digit for the value zero, as fmt's %x verb
prints an unsigned integer. -/
def hexDigits64 (n : Nat) : List Nat :=
  let ds := ((List.range 16).map fun i => n / 16 ^ (15 - i) % 16).dropWhile (fun d => d == 0)
  if ds.isEmpty then [0] else ds

/-- fmt %x of an unsigned 64-bit value: its hex digits in lowercase. -/
def natToHex64 (n : Nat) : String :=
  ⟨(hexDigits64 n).map hexChar⟩

/-- fmt.Sprintf with the %x verb on an int64 (the type of
time.Now().UnixNano()): lowercase hex of the magnitude, prefixed with a
minus sign when the value is negative. -/
def sprintfHexInt64 (n : Int) : String :=
  if n < 0 then "-" ++ natToHex64 n.natAbs else natToHex64 n.toNat

/-! ### generateRequestID (src/trace_interceptor.go) -/

/-- generateRequestID of src/trace_interceptor.go.  The effect of
crypto/rand.Read on the 16-byte buffer is the explicit argument
`randBytes`: `some f` when rand.Read succeeds and fills byte i with `f i`,
`none` when it returns an error; `nowUnixNano` is time.Now().UnixNano(),
used only on the failure path.  On success the buffer is hex-encoded; on
failure the function returns fmt.Sprintf("%x", time.Now().UnixNano()). -/
def generateRequestID (randBytes : Option (Fin 16 → Fin 256)) (nowUnixNano : Int) : String :=
  match randBytes with
  | some f => hexEncodeToString (List.ofFn f)
  | none => sprintfHexInt64 nowUnixNano

/-- A character is a lowercase hexadecimal digit. -/
def isLowerHexChar (c : Char) : Prop :=
  (48 ≤ c.toNat ∧ c.toNat ≤ 57) ∨ (97 ≤ c.toNat ∧ c.toNat ≤ 102)

instance (c : Char) : Decidable (isLowerHexChar c) := by
  unfold isLowerHexChar; infer_instance

/-! ### gRPC metadata (google.golang.org/grpc/metadata) and the carrier -/

/-- strings.ToLower restricted to its ASCII action, which is all the header
keys here use: an uppercase ASCII letter becomes the corresponding
lowercase letter, everything else is unchanged. -/
def lowerChar (c : Char) : Char :=
  if 65 ≤ c.toNat ∧ c.toNat ≤ 90 then Char.ofNat (c.toNat + 32) else c

/-- strings.ToLower of a whole key. -/
def toLowerStr (s : String) : String :=
  ⟨s.data.map lowerChar⟩

/-- metadata.MD is a Go map from keys to slices of values; embedded as an
association list, whose key list is duplicate-free whenever it models a
real Go map. -/
abbrev MD := List (String × List String)

/-- Go map indexing md[k]: the values stored under exactly the key `k`, or
none when the key is absent. -/
def mdIndex : MD → String → Option (List String)
  | [], _ => none
  | (k, vs) :: rest, key => if k = key then some vs else mdIndex rest key

/-- Go map update md[k] = vs: replaces the binding of `k` when it exists,
otherwise adds one. -/
def mdStore : MD → String → List String → MD
  | [], key, vs => [(key, vs)]
  | (k, vs') :: rest, key, vs =>
    if k = key then (key, vs) :: rest else (k, vs') :: mdStore rest key vs

/-- metadata.MD.Get: lowercases the key and returns md[k] (the empty slice
when the key is absent). -/
def mdGet (m : MD) (key : String) : List String :=
  (mdIndex m (toLowerStr key)).getD []

/-- metadata.MD.Set: a no-op for an empty value list, otherwise lowercases
the key and stores the values under it. -/
def mdSet (m : MD) (key : String) (vals : List String) : MD :=
  if vals.isEmpty then m else mdStore m (toLowerStr key) vals

/-- metadataCarrier.Get of src/trace_interceptor.go: the first value that
metadata.MD.Get returns for the key, or the empty string when there is
none. -/
def metadataCarrier.get (m : MD) (key : String) : String :=
  match mdGet m key with
  | v :: _ => v
  | [] => ""

/-- metadataCarrier.Set of src/trace_interceptor.go: metadata.MD.Set with
the single value.  The Go method mutates the map in place; the embedding
returns the updated collection. -/
def metadataCarrier.set (m : MD) (key value : String) : MD :=
  mdSet m key [value]

/-- metadataCarrier.Keys of src/trace_interceptor.go: the keys of the
underlying map, one per stored binding (Go's map range visits each key
exactly once, in unspecified order; the embedding uses the list order). -/
def metadataCarrier.keys (m : MD) : List String :=
  m.map Prod.fst

/-! ### Call context (context.Context with framework-log and span values) -/

/-- The per-call context as the interceptors observe it: the trace and
request identifiers stored by framework-log's ContextWith* helpers (absent
until stored), and the identifiers of the span that trace.StartSpan put
into the context (what trace.TraceIDFromContext and trace.SpanIDFromContext
read; the empty string models an invalid/absent span context). -/
structure Ctx where
  logTraceID : Option String
  logRequestID : Option String
  otelTraceID : String
  otelSpanID : String

/-- log.ContextWithTraceID: stores the trace identifier in the context. -/
def contextWithTraceID (c : Ctx) (t : String) : Ctx :=
  { c with logTraceID := some t }

/-- log.ContextWithRequestID: stores the request identifier. -/
def contextWithRequestID (c : Ctx) (r : String) : Ctx :=
  { c with logRequestID := some r }

/-- log.TraceIDFromContext: the stored trace identifier, or "" if none was
stored. -/
def logTraceIDFromContext (c : Ctx) : String :=
  c.logTraceID.getD ""

/-- log.RequestIDFromContext: the stored request identifier, or "". -/
def logRequestIDFromContext (c : Ctx) : String :=
  c.logRequestID.getD ""

/-- trace.TraceIDFromContext: the active span's trace identifier. -/
def traceIDFromContext (c : Ctx) : String :=
  c.otelTraceID

/-- trace.SpanIDFromContext: the active span's span identifier. -/
def spanIDFromContext (c : Ctx) : String :=
  c.otelSpanID

/-! ### Observable effects -/

/-- The structured log lines the trace interceptor can emit. -/
inductive LogEvent where
  | started (method traceID spanID : String)
  | completed (method : String)
  | failed (method : String) (err : GoError)
  deriving DecidableEq

/-- The metric reports the metrics interceptor emits; `δ` is the (opaque)
type of the observed duration value. -/
inductive MetricEvent (δ : Type) where
  | counterInc (counter : String) (method code : String)
  | observe (hist : String) (method code : String) (value : δ)

/-! ### MetricsUnaryInterceptor (src/metrics_interceptor.go) -/

/-- Inputs of one invocation of the metrics interceptor: the call context,
the request, the wrapped handler, the method's full name
(info.FullMethod), and the elapsed duration that time.Since measures
around the handler call (opaque: wall-clock time is an input of the
model). -/
structure MetricsEnv (ρ α δ : Type) where
  ctx : Ctx
  req : ρ
  handler : Ctx → ρ → α × Option GoError
  fullMethod : String
  elapsed : δ

/-- Result of one invocation of the metrics interceptor: the returned
response/error pair and the metric reports made, in order. -/
structure MetricsResult (α δ : Type) where
  resp : α
  err : Option GoError
  events : List (MetricEvent δ)

/-- MetricsUnaryInterceptor's wrapped function: calls the handler, derives
the status label (status.Code(err).String(), overwritten with
codes.OK.String() when err is nil), then increments GRPCRequestTotal and
observes GRPCRequestDuration, both labeled with the full method name and
the status label, and returns the handler's response and error. -/
def metricsUnaryInterceptor (env : MetricsEnv ρ α δ) : MetricsResult α δ :=
  let r := env.handler env.ctx env.req
  let code := (statusCode r.2).toGoString
  let code := if r.2 = none then Code.ok.toGoString else code
  { resp := r.1
    err := r.2
    events := [MetricEvent.counterInc "GRPCRequestTotal" env.fullMethod code,
               MetricEvent.observe "GRPCRequestDuration" env.fullMethod code env.elapsed] }

/-! ### TraceUnaryInterceptor (src/trace_interceptor.go, server side) -/

/-- Inputs of one invocation of the server trace interceptor.
`incomingMD` is what metadata.FromIncomingContext yields (`none` when
ok is false or the metadata is nil); `ctxAfterSpan` is the call context
right after propagator.Extract and trace.StartSpan have run, so its span
identifiers are whatever the tracing backend put there; `randBytes` and
`nowUnixNano` feed generateRequestID as above. -/
structure ServerEnv (ρ α : Type) where
  incomingMD : Option MD
  ctxAfterSpan : Ctx
  randBytes : Option (Fin 16 → Fin 256)
  nowUnixNano : Int
  fullMethod : String
  req : ρ
  handler : Ctx → ρ → α × Option GoError

/-- The header-extraction step of the server interceptor for one key:
values[0] of md.Get(key) when the metadata is present and the value list
non-empty, otherwise the zero value "" of the uninitialized Go string
variable. -/
def headerFirst (incomingMD : Option MD) (key : String) : String :=
  match incomingMD with
  | some md =>
    match mdGet md key with
    | v :: _ => v
    | [] => ""
  | none => ""

/-- The trace identifier the server interceptor derives: the x-trace-id
header value if that left the variable non-empty, else
trace.TraceIDFromContext. -/
def serverTraceID (env : ServerEnv ρ α) : String :=
  let t := headerFirst env.incomingMD "x-trace-id"
  if t = "" then traceIDFromContext env.ctxAfterSpan else t

/-- The request identifier the server interceptor derives: the
x-request-id header value if that left the variable non-empty, else a
freshly generated one. -/
def serverRequestID (env : ServerEnv ρ α) : String :=
  let r := headerFirst env.incomingMD "x-request-id"
  if r = "" then generateRequestID env.randBytes env.nowUnixNano else r

/-- The context the handler is invoked with: the derived identifiers are
injected, each under the guard `!= ""` the code uses. -/
def serverCallCtx (env : ServerEnv ρ α) : Ctx :=
  let c := env.ctxAfterSpan
  let c := if serverTraceID env ≠ "" then contextWithTraceID c (serverTraceID env) else c
  if serverRequestID env ≠ "" then contextWithRequestID c (serverRequestID env) else c

/-- Result of one invocation of the server trace interceptor: the returned
pair, the derived identifiers, the context values visible downstream, the
log lines in order, and the attributes set on the span. -/
structure ServerResult (α : Type) where
  resp : α
  err : Option GoError
  traceID : String
  requestID : String
  ctxTraceID : Option String
  ctxRequestID : Option String
  logs : List LogEvent
  spanAttrs : List (String × String)

/-- TraceUnaryInterceptor's wrapped function: extracts the identifiers
from the inbound metadata with span-context / generation fallbacks,
injects them into the context, logs the start line when either identifier
is non-empty, calls the handler, sets the rpc.method and rpc.status_code
span attributes, logs the completion or failure line under the code's
guard on the context-stored identifiers, and returns the handler's
response and error. -/
def traceUnaryInterceptor (env : ServerEnv ρ α) : ServerResult α :=
  let traceID := serverTraceID env
  let requestID := serverRequestID env
  let ctx := serverCallCtx env
  let startLogs :=
    if traceID ≠ "" ∨ requestID ≠ "" then
      [LogEvent.started env.fullMethod traceID (spanIDFromContext ctx)]
    else []
  let r := env.handler ctx env.req
  let attrs := [("rpc.method", env.fullMethod),
                ("rpc.status_code", (statusCode r.2).toGoString)]
  let endLogs :=
    if logTraceIDFromContext ctx ≠ "" ∨ logRequestIDFromContext ctx ≠ "" then
      match r.2 with
      | some e => [LogEvent.failed env.fullMethod e]
      | none => [LogEvent.completed env.fullMethod]
    else []
  { resp := r.1
    err := r.2
    traceID := traceID
    requestID := requestID
    ctxTraceID := ctx.logTraceID
    ctxRequestID := ctx.logRequestID
    logs := startLogs ++ endLogs
    spanAttrs := attrs }

/-! ### TraceUnaryClientInterceptor (src/trace_interceptor.go, client side) -/

/-- Inputs of one invocation of the client trace interceptor.
`outgoingMD` is what metadata.FromOutgoingContext yields (`none` when ok
is false, in which case the code starts from an empty metadata.MD);
`inject` is the opaque effect of propagator.Inject on the carrier's
underlying metadata; the invoker receives the metadata placed in the
outgoing context and returns the call's error. -/
structure ClientEnv where
  method : String
  outgoingMD : Option MD
  inject : MD → MD
  invoker : MD → Option GoError

/-- Result of one invocation of the client trace interceptor: the returned
error, the attributes set on the span in order, and the errors recorded on
the span. -/
structure ClientResult where
  err : Option GoError
  spanAttrs : List (String × String)
  recordedErrors : List GoError

/-- The outbound metadata the client interceptor builds: the outgoing
context's metadata (or a fresh empty one), with the trace context injected
through the carrier. -/
def clientOutboundMD (env : ClientEnv) : MD :=
  env.inject (env.outgoingMD.getD [])

/-- TraceUnaryClientInterceptor's wrapped function: builds the outbound
metadata, sets the rpc.method and rpc.system attributes, invokes the
downstream call, then on error sets rpc.status_code to the error's status
code name and records the error on the span, and on success sets
rpc.status_code to "OK"; the invoker's error is returned either way. -/
def traceUnaryClientInterceptor (env : ClientEnv) : ClientResult :=
  let md := clientOutboundMD env
  let attrs := [("rpc.method", env.method), ("rpc.system", "grpc")]
  let err := env.invoker md
  match err with
  | some e =>
    { err := some e
      spanAttrs := attrs ++ [("rpc.status_code", (statusCode (some e)).toGoString)]
      recordedErrors := [e] }
  | none =>
    { err := none
      spanAttrs := attrs ++ [("rpc.status_code", "OK")]
      recordedErrors := [] }

/-! ### Helper lemmas -/

theorem hexEncodeToString_data (bs : List (Fin 256)) :
    (hexEncodeToString bs).data = bs.flatMap fun b => [hexChar (b.val / 16), hexChar (b.val % 16)] :=
  rfl

theorem hexEncodeToString_length (bs : List (Fin 256)) :
    (hexEncodeToString bs).length = 2 * bs.length := by
  induction bs with
  | nil => rfl
  | cons b t ih =>
    have h1 : (hexEncodeToString (b :: t)).length = 2 + (hexEncodeToString t).length := by
      show (hexEncodeToString (b :: t)).data.length = 2 + (hexEncodeToString t).data.length
      rw [hexEncodeToString_data, hexEncodeToString_data, List.flatMap_cons, List.length_append]
      rfl
    rw [h1, ih, List.length_cons]
    ring

theorem hexChar_isLowerHex (n : Nat) (h : n < 16) : isLowerHexChar (hexChar n) := by
  interval_cases n <;> decide

theorem hexEncodeToString_chars (bs : List (Fin 256)) :
    ∀ c ∈ (hexEncodeToString bs).data, isLowerHexChar c := by
  intro c hc
  rw [hexEncodeToString_data] at hc
  simp [List.mem_flatMap] at hc
  obtain ⟨b, _, hb⟩ := hc
  rcases hb with h | h
  · rw [h]
    exact hexChar_isLowerHex _ (Nat.div_lt_of_lt_mul b.isLt)
  · rw [h]
    exact hexChar_isLowerHex _ (Nat.mod_lt _ (by omega))

theorem hexDigits64_ne_nil (n : Nat) : hexDigits64 n ≠ [] := by
  by_cases h :
      (((List.range 16).map fun i => n / 16 ^ (15 - i) % 16).dropWhile (fun d => d == 0)).isEmpty
  · simp [hexDigits64, h]
  · simp only [hexDigits64, if_neg h]
    simpa [List.isEmpty_iff] using h

theorem natToHex64_ne_empty (n : Nat) : natToHex64 n ≠ "" := by
  intro h
  have hd : (natToHex64 n).data = [] := by rw [h]
  unfold natToHex64 at hd
  simp at hd
  exact hexDigits64_ne_nil n hd

theorem sprintfHexInt64_ne_empty (n : Int) : sprintfHexInt64 n ≠ "" := by
  unfold sprintfHexInt64
  split
  · intro h
    have hd := congrArg String.data h
    simp [String.data_append] at hd
  · exact natToHex64_ne_empty _

theorem generateRequestID_ne_empty (r : Option (Fin 16 → Fin 256)) (now : Int) :
    generateRequestID r now ≠ "" := by
  cases r with
  | none => exact sprintfHexInt64_ne_empty now
  | some f =>
    intro h
    have hl := congrArg String.length h
    simp only [generateRequestID] at hl
    rw [hexEncodeToString_length] at hl
    simp at hl

theorem mdIndex_mdStore_self (m : MD) (k : String) (vs : List String) :
    mdIndex (mdStore m k vs) k = some vs := by
  induction m with
  | nil => simp [mdStore, mdIndex]
  | cons p rest ih =>
    by_cases h : p.1 = k
    · simp [mdStore, h, mdIndex]
    · cases p with
      | mk k' vs' =>
        simp only [mdStore]
        rw [if_neg h]
        simp only [mdIndex]
        rw [if_neg h]
        exact ih

theorem serverRequestID_ne_empty (env : ServerEnv ρ α) : serverRequestID env ≠ "" := by
  show (if headerFirst env.incomingMD "x-request-id" = "" then
          generateRequestID env.randBytes env.nowUnixNano
        else headerFirst env.incomingMD "x-request-id") ≠ ""
  split
  · exact generateRequestID_ne_empty _ _
  · next h => exact h

theorem serverCallCtx_logRequestID (env : ServerEnv ρ α) :
    (serverCallCtx env).logRequestID = some (serverRequestID env) := by
  unfold serverCallCtx
  rw [if_pos (serverRequestID_ne_empty env)]
  rfl

theorem logRequestIDFromContext_serverCallCtx (env : ServerEnv ρ α) :
    logRequestIDFromContext (serverCallCtx env) = serverRequestID env := by
  unfold logRequestIDFromContext
  rw [serverCallCtx_logRequestID]
  rfl

theorem traceUnaryInterceptor_logs (env : ServerEnv ρ α) :
    (traceUnaryInterceptor env).logs =
      LogEvent.started env.fullMethod (serverTraceID env)
          (spanIDFromContext (serverCallCtx env)) ::
        (match (env.handler (serverCallCtx env) env.req).2 with
         | some e => [LogEvent.failed env.fullMethod e]
         | none => [LogEvent.completed env.fullMethod]) := by
  show (if serverTraceID env ≠ "" ∨ serverRequestID env ≠ "" then
          [LogEvent.started env.fullMethod (serverTraceID env)
            (spanIDFromContext (serverCallCtx env))]
        else []) ++
       (if logTraceIDFromContext (serverCallCtx env) ≠ "" ∨
            logRequestIDFromContext (serverCallCtx env) ≠ "" then
          match (env.handler (serverCallCtx env) env.req).2 with
          | some e => [LogEvent.failed env.fullMethod e]
          | none => [LogEvent.completed env.fullMethod]
        else []) = _
  rw [if_pos (Or.inr (serverRequestID_ne_empty env)),
      if_pos (Or.inr (by rw [logRequestIDFromContext_serverCallCtx]
                         exact serverRequestID_ne_empty env))]
  rfl

/-! ### Claims -/

/-- C1: for every handler and every request, both server interceptors
(MetricsUnaryInterceptor and TraceUnaryInterceptor) return exactly the
(response, error) pair that the wrapped handler returned; they never
suppress, replace, or alter the handler's response or error. -/
theorem c1_interceptors_return_handler_pair
    (envM : MetricsEnv ρ α δ) (envT : ServerEnv ρ' α') :
    (metricsUnaryInterceptor envM).resp = (envM.handler envM.ctx envM.req).1 ∧
    (metricsUnaryInterceptor envM).err = (envM.handler envM.ctx envM.req).2 ∧
    (traceUnaryInterceptor envT).resp = (envT.handler (serverCallCtx envT) envT.req).1 ∧
    (traceUnaryInterceptor envT).err = (envT.handler (serverCallCtx envT) envT.req).2 :=
  ⟨rfl, rfl, rfl, rfl⟩

/-- C2 counterexample: the claim says generateRequestID always returns a
32-character string, including on the fallback path; but when the random
source fails at the timestamp 1700000000000000000 (2023-11-14 in
nanoseconds), the returned identifier is the 16-character hex encoding of
that timestamp, not a 32-character string. -/
theorem c2_counterexample :
    (generateRequestID none 1700000000000000000).length = 16 ∧
    ¬ (generateRequestID none 1700000000000000000).length = 32 := by
  constructor
  · rfl
  · decide

/-- C2 amended: on the random path generateRequestID returns a
32-character string of lowercase hexadecimal characters; on the fallback
path it returns the hex encoding of time.Now().UnixNano(), which is
non-empty but not 32 characters in general. -/
theorem c2_amended_request_id_shape (f : Fin 16 → Fin 256) (now : Int) :
    (generateRequestID (some f) now).length = 32 ∧
    (∀ c ∈ (generateRequestID (some f) now).data, isLowerHexChar c) ∧
    generateRequestID none now = sprintfHexInt64 now ∧
    generateRequestID none now ≠ "" := by
  refine ⟨?_, ?_, rfl, generateRequestID_ne_empty none now⟩
  · show (hexEncodeToString (List.ofFn f)).length = 32
    rw [hexEncodeToString_length, List.length_ofFn]
  · intro c hc
    exact hexEncodeToString_chars _ c hc

/-- C2 amended, witness: the constant byte 0xab gives the 32-character
identifier "abababababababababababababababab", whose first character is a
lowercase hex digit. -/
theorem c2_amended_request_id_shape_witness :
    (generateRequestID (some fun _ => (171 : Fin 256)) 0).length = 32 ∧
    isLowerHexChar 'a' := by
  have h := c2_amended_request_id_shape (fun _ => (171 : Fin 256)) 0
  exact ⟨h.1, h.2.1 'a' (by decide)⟩

/-- C3: when the random source fails, generateRequestID neither propagates
the error nor fails the call: it still returns a string, namely the
deterministic hexadecimal encoding of time.Now().UnixNano(), and that
string is never empty. -/
theorem c3_fallback_is_timestamp_hex (now : Int) :
    generateRequestID none now = sprintfHexInt64 now ∧
    generateRequestID none now ≠ "" :=
  ⟨rfl, generateRequestID_ne_empty none now⟩

/-- C4: the carrier round-trips against the underlying header collection:
after metadataCarrier.Set(key, value), metadataCarrier.Get(key) returns
value; and metadataCarrier.Keys() enumerates exactly the keys present in
the underlying collection, each exactly once (once per binding, and a Go
map, modelled by the Nodup hypothesis on the stored keys, has one binding
per key). -/
theorem c4_carrier_roundtrip (m : MD) (key value : String) :
    metadataCarrier.get (metadataCarrier.set m key value) key = value ∧
    (∀ k, k ∈ metadataCarrier.keys m ↔ ∃ vs, (k, vs) ∈ m) ∧
    ((m.map Prod.fst).Nodup →
      ∀ k, (metadataCarrier.keys m).count k = if k ∈ m.map Prod.fst then 1 else 0) := by
  refine ⟨?_, ?_, ?_⟩
  · show (match mdGet (mdSet m key [value]) key with
          | v :: _ => v
          | [] => "") = value
    have hstore : mdSet m key [value] = mdStore m (toLowerStr key) [value] := by
      simp [mdSet]
    rw [hstore]
    show (match (mdIndex (mdStore m (toLowerStr key) [value]) (toLowerStr key)).getD [] with
          | v :: _ => v
          | [] => "") = value
    rw [mdIndex_mdStore_self]
    rfl
  · intro k
    simp [metadataCarrier.keys, List.mem_map]
  · intro hnd k
    induction m with
    | nil => simp [metadataCarrier.keys]
    | cons p rest ih =>
      rw [List.map_cons, List.nodup_cons] at hnd
      obtain ⟨hp, hrest⟩ := hnd
      have ihk := ih hrest
      simp only [metadataCarrier.keys, List.map_cons] at ihk ⊢
      by_cases hk : k = p.1
      · subst hk
        rw [if_pos (List.mem_cons_self _ _), List.count_cons_self,
            List.count_eq_zero.mpr hp]
      · rw [List.count_cons_of_ne hk, ihk]
        by_cases h2 : k ∈ rest.map Prod.fst
        · rw [if_pos h2, if_pos (List.mem_cons_of_mem _ h2)]
        · rw [if_neg h2, if_neg ?_]
          intro hc
          rcases List.mem_cons.mp hc with h | h
          · exact hk h
          · exact h2 h

/-- C4 witness: a concrete round-trip on the collection
[("a", ["1"])] with key "K" (note the lowercasing) and value "v", and the
key "a" counted exactly once. -/
theorem c4_carrier_roundtrip_witness :
    metadataCarrier.get (metadataCarrier.set [("a", ["1"])] "K" "v") "K" = "v" ∧
    (metadataCarrier.keys [("a", ["1"])]).count "a" = 1 := by
  have h := c4_carrier_roundtrip [("a", ["1"])] "K" "v"
  refine ⟨h.1, ?_⟩
  have h2 := h.2.2 (by decide) "a"
  rwa [if_pos (by decide)] at h2

/-- C10: metadataCarrier.Get is total over the embedding: it returns the
first value that metadata.MD.Get yields for the key when there is at least
one, and the empty string both when the key is absent from the collection
and when the key is present with an empty value list. -/
theorem c10_carrier_get_total (m : MD) (key : String) :
    (∀ v vs, mdGet m key = v :: vs → metadataCarrier.get m key = v) ∧
    (mdGet m key = [] → metadataCarrier.get m key = "") ∧
    (mdIndex m (toLowerStr key) = none → metadataCarrier.get m key = "") := by
  refine ⟨?_, ?_, ?_⟩
  · intro v vs h
    show (match mdGet m key with
          | v :: _ => v
          | [] => "") = v
    rw [h]
  · intro h
    show (match mdGet m key with
          | v :: _ => v
          | [] => "") = ""
    rw [h]
  · intro h
    show (match mdGet m key with
          | v :: _ => v
          | [] => "") = ""
    show (match (mdIndex m (toLowerStr key)).getD [] with
          | v :: _ => v
          | [] => "") = ""
    rw [h]
    rfl

/-- C10 witness: on [("x-test-key", ["test-value"]), ("x-empty-key", [])]
the carrier returns "test-value" for the stored key, "" for the key with
no values, and "" for an absent key. -/
theorem c10_carrier_get_total_witness :
    metadataCarrier.get [("x-test-key", ["test-value"]), ("x-empty-key", [])] "x-test-key"
      = "test-value" ∧
    metadataCarrier.get [("x-test-key", ["test-value"]), ("x-empty-key", [])] "x-empty-key"
      = "" ∧
    metadataCarrier.get [("x-test-key", ["test-value"]), ("x-empty-key", [])] "x-not-exist"
      = "" := by
  refine ⟨?_, ?_, ?_⟩
  · exact (c10_carrier_get_total [("x-test-key", ["test-value"]), ("x-empty-key", [])]
      "x-test-key").1 "test-value" [] (by decide)
  · exact (c10_carrier_get_total [("x-test-key", ["test-value"]), ("x-empty-key", [])]
      "x-empty-key").2.1 (by decide)
  · exact (c10_carrier_get_total [("x-test-key", ["test-value"]), ("x-empty-key", [])]
      "x-not-exist").2.2 (by decide)

/-- C5: for every call through the metrics interceptor, the status label
is "OK" when the handler returns no error and the error's status code
name otherwise, and the reported events are exactly one increment of
GRPCRequestTotal and one observation of GRPCRequestDuration, both labeled
by the full method name and that status label. -/
theorem c5_metrics_one_inc_one_observe (env : MetricsEnv ρ α δ) :
    (metricsUnaryInterceptor env).events =
      [MetricEvent.counterInc "GRPCRequestTotal" env.fullMethod
         (if (env.handler env.ctx env.req).2 = none then "OK"
          else (statusCode (env.handler env.ctx env.req).2).toGoString),
       MetricEvent.observe "GRPCRequestDuration" env.fullMethod
         (if (env.handler env.ctx env.req).2 = none then "OK"
          else (statusCode (env.handler env.ctx env.req).2).toGoString) env.elapsed] ∧
    (metricsUnaryInterceptor env).events.countP
      (fun e => match e with | MetricEvent.counterInc _ _ _ => true | _ => false) = 1 ∧
    (metricsUnaryInterceptor env).events.countP
      (fun e => match e with | MetricEvent.observe _ _ _ _ => true | _ => false) = 1 :=
  ⟨rfl, rfl, rfl⟩

/-- C6: the server trace interceptor takes the trace identifier from the
inbound x-trace-id header exactly when that header is present with a
non-empty first value, and only otherwise from the active span context;
likewise the request identifier comes from x-request-id when present and
non-empty, and only otherwise from generateRequestID. -/
theorem c6_identifier_sources (env : ServerEnv ρ α) :
    (∀ md v vs, env.incomingMD = some md → mdGet md "x-trace-id" = v :: vs → v ≠ "" →
      (traceUnaryInterceptor env).traceID = v) ∧
    (headerFirst env.incomingMD "x-trace-id" = "" →
      (traceUnaryInterceptor env).traceID = traceIDFromContext env.ctxAfterSpan) ∧
    (∀ md v vs, env.incomingMD = some md → mdGet md "x-request-id" = v :: vs → v ≠ "" →
      (traceUnaryInterceptor env).requestID = v) ∧
    (headerFirst env.incomingMD "x-request-id" = "" →
      (traceUnaryInterceptor env).requestID = generateRequestID env.randBytes env.nowUnixNano) := by
  refine ⟨?_, ?_, ?_, ?_⟩
  · intro md v vs h1 h2 hv
    show (if headerFirst env.incomingMD "x-trace-id" = "" then
            traceIDFromContext env.ctxAfterSpan
          else headerFirst env.incomingMD "x-trace-id") = v
    have hh : headerFirst env.incomingMD "x-trace-id" = v := by
      rw [h1]
      show (match mdGet md "x-trace-id" with
            | v :: _ => v
            | [] => "") = v
      rw [h2]
    rw [hh, if_neg hv]
  · intro h
    show (if headerFirst env.incomingMD "x-trace-id" = "" then
            traceIDFromContext env.ctxAfterSpan
          else headerFirst env.incomingMD "x-trace-id") = traceIDFromContext env.ctxAfterSpan
    rw [h]
    rfl
  · intro md v vs h1 h2 hv
    show (if headerFirst env.incomingMD "x-request-id" = "" then
            generateRequestID env.randBytes env.nowUnixNano
          else headerFirst env.incomingMD "x-request-id") = v
    have hh : headerFirst env.incomingMD "x-request-id" = v := by
      rw [h1]
      show (match mdGet md "x-request-id" with
            | v :: _ => v
            | [] => "") = v
      rw [h2]
    rw [hh, if_neg hv]
  · intro h
    show (if headerFirst env.incomingMD "x-request-id" = "" then
            generateRequestID env.randBytes env.nowUnixNano
          else headerFirst env.incomingMD "x-request-id") =
         generateRequestID env.randBytes env.nowUnixNano
    rw [h]
    rfl

/-- Concrete inbound metadata for the witnesses: both correlation headers
present with non-empty values. -/
def sampleMD : MD := [("x-trace-id", ["t1"]), ("x-request-id", ["r1"])]

/-- Concrete call context for the witnesses, as it stands after span
creation. -/
def sampleCtx : Ctx :=
  { logTraceID := none, logRequestID := none, otelTraceID := "otel-t", otelSpanID := "otel-s" }

/-- Concrete server environment for the witnesses: headers present,
succeeding handler. -/
def sampleEnv : ServerEnv Nat Nat :=
  { incomingMD := some sampleMD
    ctxAfterSpan := sampleCtx
    randBytes := some fun _ => (171 : Fin 256)
    nowUnixNano := 0
    fullMethod := "/test.Service/TestMethod"
    req := 0
    handler := fun _ _ => (7, none) }

/-- Concrete server environment without inbound metadata and with a
failing handler. -/
def sampleEnvNoMD : ServerEnv Nat Nat :=
  { incomingMD := none
    ctxAfterSpan := sampleCtx
    randBytes := some fun _ => (171 : Fin 256)
    nowUnixNano := 0
    fullMethod := "/test.Service/TestMethod"
    req := 0
    handler := fun _ _ => (0, some ⟨Code.notFound, "missing"⟩) }

/-- C6 witness: with both headers present the derived identifiers are the
header values; with no inbound metadata the trace identifier falls back to
the span context's. -/
theorem c6_identifier_sources_witness :
    (traceUnaryInterceptor sampleEnv).traceID = "t1" ∧
    (traceUnaryInterceptor sampleEnv).requestID = "r1" ∧
    (traceUnaryInterceptor sampleEnvNoMD).traceID = "otel-t" ∧
    (traceUnaryInterceptor sampleEnvNoMD).requestID =
      generateRequestID sampleEnvNoMD.randBytes sampleEnvNoMD.nowUnixNano := by
  refine ⟨?_, ?_, ?_, ?_⟩
  · exact (c6_identifier_sources sampleEnv).1 sampleMD "t1" [] rfl (by decide) (by decide)
  · exact (c6_identifier_sources sampleEnv).2.2.1 sampleMD "r1" [] rfl (by decide) (by decide)
  · exact (c6_identifier_sources sampleEnvNoMD).2.1 rfl
  · exact (c6_identifier_sources sampleEnvNoMD).2.2.2 rfl

/-- C7: the server trace interceptor logs the request-start line exactly
when at least one of the derived identifiers is non-empty, logs the
completion line when the handler succeeds, and logs the failure line when
the handler errors. -/
theorem c7_server_logging (env : ServerEnv ρ α) :
    ((∃ s, LogEvent.started env.fullMethod (traceUnaryInterceptor env).traceID s
        ∈ (traceUnaryInterceptor env).logs) ↔
      ((traceUnaryInterceptor env).traceID ≠ "" ∨ (traceUnaryInterceptor env).requestID ≠ "")) ∧
    ((traceUnaryInterceptor env).err = none →
      LogEvent.completed env.fullMethod ∈ (traceUnaryInterceptor env).logs) ∧
    (∀ e, (traceUnaryInterceptor env).err = some e →
      LogEvent.failed env.fullMethod e ∈ (traceUnaryInterceptor env).logs) := by
  have hlogs := traceUnaryInterceptor_logs env
  have herr : (traceUnaryInterceptor env).err = (env.handler (serverCallCtx env) env.req).2 := rfl
  refine ⟨⟨fun _ => Or.inr (serverRequestID_ne_empty env), fun _ => ?_⟩, ?_, ?_⟩
  · refine ⟨spanIDFromContext (serverCallCtx env), ?_⟩
    rw [hlogs]
    exact List.mem_cons_self _ _
  · intro h
    rw [herr] at h
    rw [hlogs, h]
    simp
  · intro e h
    rw [herr] at h
    rw [hlogs, h]
    simp

/-- C7 witness: for the concrete succeeding call the start and completion
lines are logged; for the concrete failing call the failure line is
logged. -/
theorem c7_server_logging_witness :
    (∃ s, LogEvent.started "/test.Service/TestMethod" (traceUnaryInterceptor sampleEnv).traceID s
        ∈ (traceUnaryInterceptor sampleEnv).logs) ∧
    LogEvent.completed "/test.Service/TestMethod" ∈ (traceUnaryInterceptor sampleEnv).logs ∧
    LogEvent.failed "/test.Service/TestMethod" ⟨Code.notFound, "missing"⟩
      ∈ (traceUnaryInterceptor sampleEnvNoMD).logs := by
  refine ⟨?_, ?_, ?_⟩
  · exact (c7_server_logging sampleEnv).1.mpr (Or.inr (by decide))
  · exact (c7_server_logging sampleEnv).2.1 rfl
  · exact (c7_server_logging sampleEnvNoMD).2.2 ⟨Code.notFound, "missing"⟩ rfl

/-- C9: generateRequestID is non-empty on both the random and the fallback
path; consequently every invocation of the server trace interceptor
derives a non-empty request identifier, always stores it into the call
context, and always logs the request-start line. -/
theorem c9_request_id_always_present (r : Option (Fin 16 → Fin 256)) (now : Int)
    (env : ServerEnv ρ α) :
    generateRequestID r now ≠ "" ∧
    (traceUnaryInterceptor env).requestID ≠ "" ∧
    (traceUnaryInterceptor env).ctxRequestID = some ((traceUnaryInterceptor env).requestID) ∧
    (∃ s, LogEvent.started env.fullMethod (traceUnaryInterceptor env).traceID s
        ∈ (traceUnaryInterceptor env).logs) := by
  refine ⟨generateRequestID_ne_empty r now, serverRequestID_ne_empty env, ?_, ?_⟩
  · show (serverCallCtx env).logRequestID = some (serverRequestID env)
    exact serverCallCtx_logRequestID env
  · refine ⟨spanIDFromContext (serverCallCtx env), ?_⟩
    rw [traceUnaryInterceptor_logs env]
    exact List.mem_cons_self _ _

/-- C8: the client trace interceptor returns exactly the invoker's error;
on failure it sets the span's rpc.status_code attribute to the error's
status code name and records the error on the span, and on success it sets
rpc.status_code to "OK" and records no error. -/
theorem c8_client_error_passthrough (env : ClientEnv) :
    (traceUnaryClientInterceptor env).err = env.invoker (clientOutboundMD env) ∧
    (∀ e, env.invoker (clientOutboundMD env) = some e →
      ("rpc.status_code", e.code.toGoString) ∈ (traceUnaryClientInterceptor env).spanAttrs ∧
      (traceUnaryClientInterceptor env).recordedErrors = [e]) ∧
    (env.invoker (clientOutboundMD env) = none →
      ("rpc.status_code", "OK") ∈ (traceUnaryClientInterceptor env).spanAttrs ∧
      (traceUnaryClientInterceptor env).recordedErrors = []) := by
  have hbody : traceUnaryClientInterceptor env =
      (match env.invoker (clientOutboundMD env) with
       | some e =>
         { err := some e
           spanAttrs := [("rpc.method", env.method), ("rpc.system", "grpc")] ++
             [("rpc.status_code", (statusCode (some e)).toGoString)]
           recordedErrors := [e] }
       | none =>
         { err := none
           spanAttrs := [("rpc.method", env.method), ("rpc.system", "grpc")] ++
             [("rpc.status_code", "OK")]
           recordedErrors := [] }) := rfl
  refine ⟨?_, ?_, ?_⟩
  · rw [hbody]
    cases h : env.invoker (clientOutboundMD env) <;> rfl
  · intro e h
    rw [hbody, h]
    exact ⟨by simp [statusCode], rfl⟩
  · intro h
    rw [hbody, h]
    exact ⟨by simp, rfl⟩

/-- Concrete client environment whose invoker fails with NotFound. -/
def sampleClientEnvErr : ClientEnv :=
  { method := "/test.Service/TestMethod"
    outgoingMD := none
    inject := fun md => md
    invoker := fun _ => some ⟨Code.notFound, "missing"⟩ }

/-- Concrete client environment whose invoker succeeds. -/
def sampleClientEnvOk : ClientEnv :=
  { method := "/test.Service/TestMethod"
    outgoingMD := some sampleMD
    inject := fun md => md
    invoker := fun _ => none }

/-- C8 witness: the failing invoker's error is returned, its status code
name lands in the span attributes and the error is recorded; the
succeeding invoker yields the "OK" attribute and no recorded error. -/
theorem c8_client_error_passthrough_witness :
    (traceUnaryClientInterceptor sampleClientEnvErr).err = some ⟨Code.notFound, "missing"⟩ ∧
    ("rpc.status_code", "NotFound")
      ∈ (traceUnaryClientInterceptor sampleClientEnvErr).spanAttrs ∧
    (traceUnaryClientInterceptor sampleClientEnvErr).recordedErrors =
      [⟨Code.notFound, "missing"⟩] ∧
    ("rpc.status_code", "OK") ∈ (traceUnaryClientInterceptor sampleClientEnvOk).spanAttrs ∧
    (traceUnaryClientInterceptor sampleClientEnvOk).recordedErrors = [] := by
  have he := c8_client_error_passthrough sampleClientEnvErr
  have ho := c8_client_error_passthrough sampleClientEnvOk
  have h1 := he.2.1 ⟨Code.notFound, "missing"⟩ rfl
  have h2 := ho.2.2 rfl
  exact ⟨he.1, h1.1, h1.2, h2.1, h2.2⟩

end Interceptor
